import Mathlib

/-!
Verification of the prompt-intent dispatch and batched-enrichment pipeline of
`src/gemini-email-automator/aiService.ts` (an AI lead-generation / outreach
assistant).  The TypeScript source is shallowly embedded: pure logic becomes
Lean functions, every outbound network call becomes an oracle parameter of
type `Except JsError _` (one deterministic outcome per input), the process-wide
mutable draft cache becomes explicit state passing, and promise rejection /
thrown exceptions become the `Except.error` constructor.
-/

set_option maxHeartbeats 1600000

/-- JavaScript runtime error value, as observed by the catch sites of
`aiService.ts`.  `isAxios` models `axios.isAxiosError(e)`, `status` models
`e.response?.status` (absent when there was no HTTP response), `name` models
`e.name` (`"RetryableError"` for the custom retryable class), and
`respDataMessage` models `e.response?.data?.message`. -/
structure JsError where
  message : String
  isAxios : Bool := false
  status : Option Nat := none
  name : String := "Error"
  respDataMessage : Option String := none
deriving Repr, DecidableEq

deriving instance DecidableEq for Except

/-- MAX_RETRIES constant (aiService.ts:8). -/
def MAX_RETRIES : Nat := 3

/-- isRetryable (aiService.ts:24-31): axios errors are retryable on status 429
or status at least 500 (a missing status is read as 0 by `?? 0`); other errors
are retryable exactly when they are `RetryableError` instances. -/
def isRetryable (e : JsError) : Bool :=
  if e.isAxios then (e.status == some 429) || decide (500 ≤ e.status.getD 0)
  else e.name == "RetryableError"

/-- Retry loop of apiCallWithRetry (aiService.ts:33-50), resumed at attempt
index `i`.  The operation is modelled as a function from the 0-based attempt
index to that attempt's outcome.  The returned `Nat` is the total number of
attempts made.  The loop body: try the call; on a retryable failure with
`i < MAX_RETRIES - 1` sleep and continue, otherwise rethrow the error
unchanged.  (The sleep delay and the `onRetry` callback do not affect the
result and are not modelled.) -/
def retryFrom (op : Nat → Except JsError α) (i : Nat) : Except JsError α × Nat :=
  match op i with
  | .ok v => (.ok v, i + 1)
  | .error e =>
      if isRetryable e = true ∧ i < MAX_RETRIES - 1 then
        retryFrom op (i + 1)
      else
        (.error e, i + 1)
termination_by MAX_RETRIES - i
decreasing_by simp_wf; omega

/-- apiCallWithRetry (aiService.ts:33-50): run the retry loop from attempt 0. -/
def apiCallWithRetry (op : Nat → Except JsError α) : Except JsError α × Nat :=
  retryFrom op 0

/-- getJsonFromOpenAI (aiService.ts:52-66).  `proxyCall` is the outcome of the
retried `axios.post('/api/openai-proxy', ...)` call.  On success the parsed
JSON body is returned directly.  On failure the catch block first evaluates
`console.error("Failed to parse JSON from OpenAI:", content)`; but `content`
is not a variable in scope anywhere in this function or module (it was a local
of an earlier revision that parsed the completion text), so under ECMAScript
semantics resolving the unbound identifier throws a ReferenceError, and the
subsequent `throw new Error("Received malformed JSON from the AI.")` on the
next line is never reached. -/
def getJsonFromOpenAI (proxyCall : Except JsError α) : Except JsError α :=
  match proxyCall with
  | .ok v => .ok v
  | .error _ => .error { message := "content is not defined", name := "ReferenceError" }

/-- Sample network failure of the OpenAI proxy call (request fails after
retries, no HTTP response attached). -/
def sampleNetworkError : JsError :=
  { message := "Network Error", isAxios := true }

/-- C3: the claim says a failed or malformed LLM call surfaces to the caller
as the hard error "Received malformed JSON from the AI.".  The code is a slip:
its catch block dereferences the unbound identifier `content` while logging,
so the caller instead receives a ReferenceError ("content is not defined") and
the documented message is unreachable.  The result is still a hard error —
never silently defaulted — but with the wrong message. -/
theorem c3_getJsonFromOpenAI_raises_referenceError :
    getJsonFromOpenAI (α := Unit) (.error sampleNetworkError)
      = .error { message := "content is not defined", name := "ReferenceError" }
    ∧ (decide (getJsonFromOpenAI (α := Unit) (.error sampleNetworkError)
          = .error { message := "Received malformed JSON from the AI." }) = false)
    ∧ ((getJsonFromOpenAI (α := Unit) (.ok ())) = .ok ()) :=
  ⟨rfl, rfl, rfl⟩

/-- C4: behaviour of the Retrying HTTP Caller.  (1) If the first two attempts
fail with retryable errors and the third succeeds, exactly 3 attempts are made
and the success value is returned.  (2) If the first attempt fails with a
non-retryable error, exactly 1 attempt is made and that error propagates
unchanged.  (3) No execution makes more than 3 total attempts. -/
theorem c4_apiCallWithRetry_retry_behaviour (op : Nat → Except JsError α) :
    (∀ e0 e1 v, op 0 = .error e0 → op 1 = .error e1 → op 2 = .ok v →
        isRetryable e0 = true → isRetryable e1 = true →
        apiCallWithRetry op = (.ok v, 3))
    ∧ (∀ e, op 0 = .error e → isRetryable e = false →
        apiCallWithRetry op = (.error e, 1))
    ∧ (apiCallWithRetry op).2 ≤ 3 := by
  refine ⟨?_, ?_, ?_⟩
  · intro e0 e1 v h0 h1 h2 hr0 hr1
    unfold apiCallWithRetry
    unfold retryFrom
    simp [h0, hr0, MAX_RETRIES]
    unfold retryFrom
    simp [h1, hr1, MAX_RETRIES]
    unfold retryFrom
    simp [h2]
  · intro e h0 hr
    unfold apiCallWithRetry
    unfold retryFrom
    simp [h0, hr]
  · unfold apiCallWithRetry
    unfold retryFrom
    match h0 : op 0 with
    | .ok v => simp
    | .error e0 =>
      simp only []
      by_cases hc0 : isRetryable e0 = true ∧ 0 < MAX_RETRIES - 1
      · rw [if_pos hc0]
        unfold retryFrom
        match h1 : op 1 with
        | .ok v => simp
        | .error e1 =>
          simp only []
          by_cases hc1 : isRetryable e1 = true ∧ 1 < MAX_RETRIES - 1
          · rw [if_pos hc1]
            unfold retryFrom
            match h2 : op 2 with
            | .ok v => simp
            | .error e2 =>
              simp only []
              have : ¬ (isRetryable e2 = true ∧ 2 < MAX_RETRIES - 1) := by
                simp [MAX_RETRIES]
              rw [if_neg this]
          · rw [if_neg hc1]
            simp
      · rw [if_neg hc0]
        simp

/-- Witness for C4 at a concrete operation: fails with HTTP 429 on attempts 0
and 1, succeeds with value 42 on attempt 2. -/
def sampleRetryOp : Nat → Except JsError Nat := fun i =>
  if i < 2 then .error { message := "rate limited", isAxios := true, status := some 429 }
  else .ok 42

/-- Witness for C4: on the concrete twice-429-then-success operation, the
caller makes exactly 3 attempts and returns 42. -/
theorem c4_apiCallWithRetry_retry_behaviour_witness :
    apiCallWithRetry sampleRetryOp = (.ok 42, 3) := by
  exact (c4_apiCallWithRetry_retry_behaviour sampleRetryOp).1
    { message := "rate limited", isAxios := true, status := some 429 }
    { message := "rate limited", isAxios := true, status := some 429 }
    42 rfl rfl rfl (by decide) (by decide)

/-- Character class `[a-zA-Z0-9_-]` of the LinkedIn profile-URL regex
(aiService.ts:253). -/
def linkedinWordChar (c : Char) : Bool :=
  (97 ≤ c.toNat && c.toNat ≤ 122) || (65 ≤ c.toNat && c.toNat ≤ 90) ||
  (48 ≤ c.toNat && c.toNat ≤ 57) || c == '_' || c == '-'

/-- Boolean prefix test on character lists (first argument is the pattern). -/
def charsStartWith : List Char → List Char → Bool
  | [], _ => true
  | _ :: _, [] => false
  | a :: as, b :: bs => a == b && charsStartWith as bs

theorem charsStartWith_length_le {p s : List Char} (h : charsStartWith p s = true) :
    p.length ≤ s.length := by
  induction p generalizing s with
  | nil => simp
  | cons a as ih =>
    match s with
    | [] => simp [charsStartWith] at h
    | b :: bs =>
      simp only [charsStartWith, Bool.and_eq_true] at h
      simpa using ih h.2

/-- Protocol group `(https?:\/\/)?` of the LinkedIn profile-URL regex,
matched greedily at the head of `s` (aiService.ts:253). -/
def linkedinProto (s : List Char) : List Char :=
  if charsStartWith ("https://".toList) s then "https://".toList
  else if charsStartWith ("http://".toList) s then "http://".toList
  else []

/-- Input remaining after the optional protocol group. -/
def linkedinAfterProto (s : List Char) : List Char :=
  s.drop (linkedinProto s).length

/-- Optional `(www\.)?` group, matched greedily after the protocol group. -/
def linkedinWww (s : List Char) : List Char :=
  if charsStartWith ("www.".toList) (linkedinAfterProto s) then "www.".toList else []

/-- Input remaining after the optional protocol and `www.` groups. -/
def linkedinAfterWww (s : List Char) : List Char :=
  (linkedinAfterProto s).drop (linkedinWww s).length

/-- Mandatory literal `linkedin\.com\/in\/` of the regex. -/
def linkedinCore : List Char := "linkedin.com/in/".toList

/-- Greedy `[a-zA-Z0-9_-]+` run following the mandatory literal. -/
def linkedinRun (s : List Char) : List Char :=
  ((linkedinAfterWww s).drop linkedinCore.length).takeWhile linkedinWordChar

/-- Attempted match of `(https?:\/\/)?(www\.)?linkedin\.com\/in\/[a-zA-Z0-9_-]+`
anchored at the head of `s` (no search).  The JS engine tries the optional
protocol group greedily, then the optional `www.` group, then the mandatory
literal and the greedy one-or-more character class.  Backtracking into the two
optional groups can never produce a match the greedy pass misses, because a
string starting with `http://`, `https://` or `www.` cannot simultaneously
start with the next component's literal â so the match is computed in a
single greedy pass.  Returns the matched token and the remainder of the input
after the match. -/
def linkedinMatchAt (s : List Char) : Option (List Char × List Char) :=
  if charsStartWith linkedinCore (linkedinAfterWww s) then
    if linkedinRun s = [] then none
    else some (linkedinProto s ++ linkedinWww s ++ linkedinCore ++ linkedinRun s,
      ((linkedinAfterWww s).drop linkedinCore.length).drop (linkedinRun s).length)
  else none

theorem linkedinMatchAt_rest_lt {s m rest : List Char}
    (h : linkedinMatchAt s = some (m, rest)) : rest.length < s.length := by
  unfold linkedinMatchAt at h
  split at h
  · rename_i hcore
    split at h
    · exact absurd h (by simp)
    · rename_i hrun
      rw [Option.some.injEq, Prod.mk.injEq] at h
      obtain ⟨-, h2⟩ := h
      subst h2
      have hA : (linkedinAfterWww s).length ≤ s.length := by
        simp only [linkedinAfterWww, linkedinAfterProto, List.length_drop]
        omega
      have hB : linkedinCore.length ≤ (linkedinAfterWww s).length :=
        charsStartWith_length_le hcore
      have hC : 1 ≤ (linkedinRun s).length := by
        cases hr : linkedinRun s with
        | nil => exact absurd hr hrun
        | cons a as => simp [hr]
      have hD : (linkedinRun s).length ≤ ((linkedinAfterWww s).drop linkedinCore.length).length := by
        unfold linkedinRun
        exact (List.takeWhile_sublist _).length_le
      have hE : linkedinCore.length = 16 := by decide
      simp only [List.length_drop] at hD ⊢
      omega
  · exact absurd h (by simp)

/-- Fuel-indexed global scan of `prompt.match(linkedinUrlRegex)`
(aiService.ts:253-254) with the `g` flag: find the leftmost match, emit it,
and continue scanning from the position immediately after the matched token.
The fuel only serves to make the recursion structural; every step consumes at
least one character, so `s.length + 1` units never run out
(`scanLinkedinFuel_congr`). -/
def scanLinkedinFuel : Nat → List Char → List String
  | 0, _ => []
  | fuel + 1, s =>
      match linkedinMatchAt s with
      | some (m, rest) => String.mk m :: scanLinkedinFuel fuel rest
      | none =>
          match s with
          | [] => []
          | _ :: tl => scanLinkedinFuel fuel tl

theorem scanLinkedinFuel_succ (fuel : Nat) (s : List Char) :
    scanLinkedinFuel (fuel + 1) s =
      match linkedinMatchAt s with
      | some (m, rest) => String.mk m :: scanLinkedinFuel fuel rest
      | none =>
          match s with
          | [] => []
          | _ :: tl => scanLinkedinFuel fuel tl := rfl

theorem scanLinkedinFuel_congr : ∀ (f g : Nat) (s : List Char),
    s.length < f → s.length < g → scanLinkedinFuel f s = scanLinkedinFuel g s := by
  intro f
  induction f with
  | zero => intro g s hf; omega
  | succ f ih =>
      intro g s hf hg
      match g, hg with
      | g + 1, hg =>
        rw [scanLinkedinFuel_succ, scanLinkedinFuel_succ]
        match hm : linkedinMatchAt s with
        | some (m, rest) =>
            have hlt := linkedinMatchAt_rest_lt hm
            simp only [hm]
            rw [ih g rest (by omega) (by omega)]
        | none =>
            simp only [hm]
            match s, hf, hg with
            | [], _, _ => rfl
            | c :: tl, hf, hg =>
                exact ih g tl (by simp at hf; omega) (by simp at hg; omega)

/-- Global regex scan over a character list (adequate fuel supplied). -/
def scanLinkedin (s : List Char) : List String :=
  scanLinkedinFuel (s.length + 1) s

/-- All matches of the LinkedIn profile-URL regex in a prompt
(aiService.ts:253-254); the empty list models `match` returning `null`. -/
def linkedinUrls (prompt : String) : List String :=
  scanLinkedin prompt.data

/-- Intent type tags of the classifier result (aiService.ts:224). -/
inductive IntentType
  | enrich_linkedin | enrich_domain | search | web_scrape | command | unknown
deriving Repr, DecidableEq

/-- Classifier result (aiService.ts:224): a type tag, a list of values and,
for commands, an optional command name and count. -/
structure Intent where
  type : IntentType
  values : List String := []
  command : Option String := none
  count : Option Nat := none
deriving Repr, DecidableEq

/-- getIntent (aiService.ts:224-261).  `llmIntent` is the outcome of the
LLM-based classification (`getJsonFromOpenAI` on the classification system
prompt).  The regex pre-classification short-circuits to `enrich_linkedin`
with the matched URLs whenever the prompt contains at least one match; only
otherwise is the LLM consulted.  The second component records whether the LLM
classifier was consulted. -/
def getIntent (prompt : String) (llmIntent : Except JsError Intent) :
    Except JsError Intent × Bool :=
  let ms := linkedinUrls prompt
  if ms.isEmpty then (llmIntent, true)
  else (.ok { type := .enrich_linkedin, values := ms }, false)

/-- C7: for every prompt containing at least one LinkedIn-profile-URL-shaped
token, the Intent Classifier returns the profile-enrichment intent whose
values are exactly the matched URL tokens, without consulting the LLM,
regardless of any other text in the prompt (the LLM outcome `llm` is
universally quantified and unused). -/
theorem c7_getIntent_linkedin_shortcircuit (prompt : String)
    (llm : Except JsError Intent) (h : linkedinUrls prompt ≠ []) :
    getIntent prompt llm =
      (.ok { type := .enrich_linkedin, values := linkedinUrls prompt,
             command := none, count := none }, false) := by
  unfold getIntent
  simp only []
  rw [if_neg (by simpa [List.isEmpty_iff] using h)]

/-- Witness for C7: a prompt holding two profile URLs amid other intent
language short-circuits to `enrich_linkedin` with exactly those two tokens,
and the (here: failing) LLM classifier is never consulted. -/
theorem c7_getIntent_linkedin_shortcircuit_witness :
    getIntent ("send emails to https://www.linkedin.com/in/jane-doe and linkedin.com/in/bob_2 now")
        (.error sampleNetworkError) =
      (.ok { type := .enrich_linkedin,
             values := ["https://www.linkedin.com/in/jane-doe", "linkedin.com/in/bob_2"],
             command := none, count := none }, false) := by
  have h := c7_getIntent_linkedin_shortcircuit
    ("send emails to https://www.linkedin.com/in/jane-doe and linkedin.com/in/bob_2 now")
    (.error sampleNetworkError) (by decide)
  rw [h]
  have : linkedinUrls ("send emails to https://www.linkedin.com/in/jane-doe and linkedin.com/in/bob_2 now")
      = ["https://www.linkedin.com/in/jane-doe", "linkedin.com/in/bob_2"] := by decide
  rw [this]

/-- Execution trace of one processInBatches run (aiService.ts:672-694):
`result` is the overall outcome (`allResults` or the thrown error), `calls`
records each invocation of the chunk-processing function in order with the
chunk it received, and `progress` records each `onProgress` invocation in
order. -/
structure BatchTrace (τ ρ : Type) where
  result : Except JsError (List ρ)
  calls : List (List τ)
  progress : List (Nat × Nat)
deriving Repr, DecidableEq

/-- Error thrown by processInBatches when a chunk fails (aiService.ts:690):
the original error is logged and replaced by this one. -/
def batchAbortError : JsError :=
  { message := "Failed to process a batch of items. See console for details." }

/-- Loop of processInBatches (aiService.ts:679-692), fuel-indexed to make the
recursion structural: the loop takes `items.slice(i, i + batchSize)`, awaits
the chunk function on it, appends the results, reports progress
`(min(i + batchSize, total), total)` and advances by `batchSize`; on a chunk
failure the loop aborts, throwing `batchAbortError`.  Each step consumes at
least one pending item when `0 < bs`, so `pending.length` units of fuel never
run out; the JS loop does not terminate when `batchSize = 0` and items remain,
so the model's value is only meaningful for `0 < bs` (all theorems assume it). -/
def processInBatchesFuel (bs total : Nat) (f : List τ → Except JsError (List ρ)) :
    Nat → List τ → Nat → BatchTrace τ ρ
  | _, [], _ => ⟨.ok [], [], []⟩
  | 0, _ :: _, _ => ⟨.ok [], [], []⟩
  | fuel + 1, p@(_ :: _), i =>
      match f (p.take bs) with
      | .error _ => ⟨.error batchAbortError, [p.take bs], []⟩
      | .ok rs =>
          let rest := processInBatchesFuel bs total f fuel (p.drop bs) (i + bs)
          ⟨rest.result.map (fun l => rs ++ l), p.take bs :: rest.calls,
           (min (i + bs) total, total) :: rest.progress⟩

/-- processInBatches (aiService.ts:672-694), with its invocation trace. -/
def processInBatches (items : List τ) (bs : Nat) (f : List τ → Except JsError (List ρ)) :
    BatchTrace τ ρ :=
  processInBatchesFuel bs items.length f items.length items 0

/-- Successive chunks `items.slice(i, i + bs)` of a list, fuel-indexed like
the loop above. -/
def chunksOfFuel (bs : Nat) : Nat → List τ → List (List τ)
  | _, [] => []
  | 0, _ :: _ => []
  | fuel + 1, p@(_ :: _) => p.take bs :: chunksOfFuel bs fuel (p.drop bs)

/-- Chunk decomposition of a list (chunk size `bs`). -/
def chunksOf (bs : Nat) (l : List τ) : List (List τ) :=
  chunksOfFuel bs l.length l

theorem chunksOfFuel_join {τ : Type} (bs : Nat) (hbs : 0 < bs) :
    ∀ (fuel : Nat) (p : List τ), p.length ≤ fuel → (chunksOfFuel bs fuel p).flatten = p := by
  intro fuel
  induction fuel with
  | zero =>
      intro p hp
      cases p with
      | nil => rfl
      | cons x xs => simp at hp
  | succ fuel ih =>
      intro p hp
      cases p with
      | nil => rfl
      | cons x xs =>
          have hd : ((x :: xs).drop bs).length ≤ fuel := by
            simp only [List.length_drop, List.length_cons] at hp ⊢
            omega
          show (((x :: xs).take bs) :: chunksOfFuel bs fuel ((x :: xs).drop bs)).flatten = x :: xs
          rw [List.flatten_cons, ih _ hd]
          exact List.take_append_drop bs (x :: xs)

theorem chunksOfFuel_mem_length {τ : Type} (bs : Nat) :
    ∀ (fuel : Nat) (p : List τ) (c : List τ), c ∈ chunksOfFuel bs fuel p → c.length ≤ bs := by
  intro fuel
  induction fuel with
  | zero =>
      intro p c hc
      cases p with
      | nil => simp [chunksOfFuel] at hc
      | cons x xs => simp [chunksOfFuel] at hc
  | succ fuel ih =>
      intro p c hc
      cases p with
      | nil => simp [chunksOfFuel] at hc
      | cons x xs =>
          have hc2 : c = (x :: xs).take bs ∨ c ∈ chunksOfFuel bs fuel ((x :: xs).drop bs) := by
            simpa [chunksOfFuel] using hc
          rcases hc2 with hc2 | hc2
          · subst hc2
            simp
          · exact ih _ _ hc2

theorem ceil_div_step (bs n : Nat) (hbs : 0 < bs) (hn : 0 < n) :
    (n + bs - 1) / bs = (n - bs + bs - 1) / bs + 1 := by
  rcases Nat.lt_or_ge n (bs + 1) with hle | hge
  · have h1 : n - bs = 0 := by omega
    have h2 : n + bs - 1 = (n - 1) + 1 * bs := by omega
    rw [h1, h2, Nat.add_mul_div_right _ _ hbs,
        Nat.div_eq_of_lt (by omega), Nat.div_eq_of_lt (by omega)]
  · have h2 : n + bs - 1 = (n - bs + bs - 1) + 1 * bs := by omega
    rw [h2, Nat.add_mul_div_right _ _ hbs]

theorem chunksOfFuel_length {τ : Type} (bs : Nat) (hbs : 0 < bs) :
    ∀ (fuel : Nat) (p : List τ), p.length ≤ fuel →
      (chunksOfFuel bs fuel p).length = (p.length + bs - 1) / bs := by
  intro fuel
  induction fuel with
  | zero =>
      intro p hp
      cases p with
      | nil =>
          show 0 = (0 + bs - 1) / bs
          rw [Nat.div_eq_of_lt (by omega)]
      | cons x xs => simp at hp
  | succ fuel ih =>
      intro p hp
      cases p with
      | nil =>
          show 0 = (0 + bs - 1) / bs
          rw [Nat.div_eq_of_lt (by omega)]
      | cons x xs =>
          have hd : ((x :: xs).drop bs).length ≤ fuel := by
            simp only [List.length_drop, List.length_cons] at hp ⊢
            omega
          show (chunksOfFuel bs fuel ((x :: xs).drop bs)).length + 1 = ((x :: xs).length + bs - 1) / bs
          rw [ih _ hd]
          have hn : 0 < (x :: xs).length := by simp
          rw [ceil_div_step bs (x :: xs).length hbs hn]
          simp only [List.length_drop]

theorem processInBatchesFuel_allOk {τ ρ : Type} (bs total : Nat) (hbs : 0 < bs)
    (f : List τ → Except JsError (List ρ)) :
    ∀ (fuel : Nat) (p : List τ) (i : Nat), p.length ≤ fuel →
      (∀ c ∈ chunksOfFuel bs fuel p, (f c).isOk = true) →
      (processInBatchesFuel bs total f fuel p i).calls = chunksOfFuel bs fuel p ∧
      (processInBatchesFuel bs total f fuel p i).result.isOk = true ∧
      (processInBatchesFuel bs total f fuel p i).progress =
        (List.range (chunksOfFuel bs fuel p).length).map
          (fun k => (min (i + (k + 1) * bs) total, total)) := by
  intro fuel
  induction fuel with
  | zero =>
      intro p i hp hok
      cases p with
      | nil => exact ⟨rfl, rfl, rfl⟩
      | cons x xs => simp at hp
  | succ fuel ih =>
      intro p i hp hok
      cases p with
      | nil => exact ⟨rfl, rfl, rfl⟩
      | cons x xs =>
          have hd : ((x :: xs).drop bs).length ≤ fuel := by
            simp only [List.length_drop, List.length_cons] at hp ⊢
            omega
          have hchunks : chunksOfFuel bs (fuel + 1) (x :: xs)
              = ((x :: xs).take bs) :: chunksOfFuel bs fuel ((x :: xs).drop bs) := rfl
          have hokhd : (f ((x :: xs).take bs)).isOk = true := by
            apply hok
            rw [hchunks]
            exact List.mem_cons_self _ _
          have hoktl : ∀ c ∈ chunksOfFuel bs fuel ((x :: xs).drop bs), (f c).isOk = true := by
            intro c hc
            apply hok
            rw [hchunks]
            exact List.mem_cons_of_mem _ hc
          obtain ⟨ihc, ihr, ihp⟩ := ih ((x :: xs).drop bs) (i + bs) hd hoktl
          match hf : f ((x :: xs).take bs) with
          | .error e => rw [hf] at hokhd; simp [Except.isOk, Except.toBool] at hokhd
          | .ok rs =>
              have hstep : processInBatchesFuel bs total f (fuel + 1) (x :: xs) i =
                  ⟨(processInBatchesFuel bs total f fuel ((x :: xs).drop bs) (i + bs)).result.map
                      (fun l => rs ++ l),
                   (x :: xs).take bs ::
                      (processInBatchesFuel bs total f fuel ((x :: xs).drop bs) (i + bs)).calls,
                   (min (i + bs) total, total) ::
                      (processInBatchesFuel bs total f fuel ((x :: xs).drop bs) (i + bs)).progress⟩ := by
                show (match f ((x :: xs).take bs) with
                  | .error _ => ⟨.error batchAbortError, [(x :: xs).take bs], []⟩
                  | .ok rs =>
                      let rest := processInBatchesFuel bs total f fuel ((x :: xs).drop bs) (i + bs)
                      ⟨rest.result.map (fun l => rs ++ l), (x :: xs).take bs :: rest.calls,
                       (min (i + bs) total, total) :: rest.progress⟩ : BatchTrace τ ρ) = _
                rw [hf]
              rw [hstep]
              refine ⟨?_, ?_, ?_⟩
              · simp only [ihc, hchunks]
              · match hres : (processInBatchesFuel bs total f fuel ((x :: xs).drop bs) (i + bs)).result with
                | .ok l => rfl
                | .error e => rw [hres] at ihr; simp [Except.isOk, Except.toBool] at ihr
              · rw [ihp, hchunks]
                simp only [List.length_cons, List.range_succ_eq_map, List.map_cons, List.map_map]
                refine congrArg₂ _ ?_ ?_
                · simp
                · apply List.map_congr_left
                  intro k hk
                  simp only [Function.comp]
                  have : i + bs + (k + 1) * bs = i + (k + 1 + 1) * bs := by ring
                  rw [this]

/-- C5: for chunk size n > 0 and any item list, when no chunk fails the Batch
Processor invokes the chunk function exactly ceil(m/n) times; each invocation
receives at most n items; the chunks concatenate back to the item list in
order (so the items are consumed in strictly increasing order of the
underlying list); and after the k-th chunk the progress callback receives
(min(k·n, m), m). -/
theorem c5_processInBatches_progress {τ ρ : Type} (items : List τ) (bs : Nat)
    (f : List τ → Except JsError (List ρ)) (hbs : 0 < bs)
    (hok : ∀ c ∈ chunksOf bs items, (f c).isOk = true) :
    (processInBatches items bs f).calls.length = (items.length + bs - 1) / bs
    ∧ (∀ c ∈ (processInBatches items bs f).calls, c.length ≤ bs)
    ∧ (processInBatches items bs f).calls.flatten = items
    ∧ (processInBatches items bs f).progress =
        (List.range ((items.length + bs - 1) / bs)).map
          (fun k => (min ((k + 1) * bs) items.length, items.length)) := by
  obtain ⟨hc, hr, hp⟩ := processInBatchesFuel_allOk bs items.length hbs f items.length items 0
    (Nat.le_refl _) hok
  have hlen := chunksOfFuel_length bs hbs items.length items (Nat.le_refl _)
  refine ⟨?_, ?_, ?_, ?_⟩
  · show (processInBatchesFuel bs items.length f items.length items 0).calls.length = _
    rw [hc, hlen]
  · intro c hcmem
    show c.length ≤ bs
    apply chunksOfFuel_mem_length bs items.length items c
    have : (processInBatches items bs f).calls = chunksOfFuel bs items.length items := hc
    rwa [this] at hcmem
  · show (processInBatchesFuel bs items.length f items.length items 0).calls.flatten = items
    rw [hc]
    exact chunksOfFuel_join bs hbs items.length items (Nat.le_refl _)
  · show (processInBatchesFuel bs items.length f items.length items 0).progress = _
    rw [hp, hlen]
    apply List.map_congr_left
    intro k hk
    simp only [Nat.zero_add]

/-- Concrete chunk function for the C5 witness: always succeeds, echoing the
chunk (one LLM call per chunk in spec scenario C). -/
def sampleBatchFn : List Nat → Except JsError (List Nat) := fun c => .ok c

/-- Witness for C5, spec end-to-end scenario C: 25 items with chunk size 10
give exactly 3 chunk-function invocations and the progress callback sequence
(10,25), (20,25), (25,25). -/
theorem c5_processInBatches_progress_witness :
    (processInBatches (List.range 25) 10 sampleBatchFn).calls.length = 3
    ∧ (processInBatches (List.range 25) 10 sampleBatchFn).progress =
        [(10, 25), (20, 25), (25, 25)] := by
  have h := c5_processInBatches_progress (List.range 25) 10 sampleBatchFn (by decide)
    (by decide)
  refine ⟨?_, ?_⟩
  · rw [h.1]
    decide
  · rw [h.2.2.2]
    decide

theorem processInBatchesFuel_failAt {τ ρ : Type} (bs total : Nat) (hbs : 0 < bs)
    (f : List τ → Except JsError (List ρ)) :
    ∀ (fuel : Nat) (p : List τ) (i : Nat) (j : Nat) (cj : List τ) (e : JsError),
      p.length ≤ fuel →
      (chunksOfFuel bs fuel p)[j]? = some cj →
      (∀ k, k < j → ∀ ck, (chunksOfFuel bs fuel p)[k]? = some ck → (f ck).isOk = true) →
      f cj = .error e →
      (processInBatchesFuel bs total f fuel p i).result = .error batchAbortError ∧
      (processInBatchesFuel bs total f fuel p i).calls = (chunksOfFuel bs fuel p).take (j + 1) := by
  intro fuel
  induction fuel with
  | zero =>
      intro p i j cj e hp hj hprev hfail
      cases p with
      | nil => simp [chunksOfFuel] at hj
      | cons x xs => simp at hp
  | succ fuel ih =>
      intro p i j cj e hp hj hprev hfail
      cases p with
      | nil => simp [chunksOfFuel] at hj
      | cons x xs =>
          have hd : ((x :: xs).drop bs).length ≤ fuel := by
            simp only [List.length_drop, List.length_cons] at hp ⊢
            omega
          have hchunks : chunksOfFuel bs (fuel + 1) (x :: xs)
              = ((x :: xs).take bs) :: chunksOfFuel bs fuel ((x :: xs).drop bs) := rfl
          cases j with
          | zero =>
              have hcj : cj = (x :: xs).take bs := by
                rw [hchunks] at hj
                simpa using hj.symm
              subst hcj
              constructor
              · show (match f ((x :: xs).take bs) with
                  | .error _ => (⟨.error batchAbortError, [(x :: xs).take bs], []⟩ : BatchTrace τ ρ)
                  | .ok rs =>
                      let rest := processInBatchesFuel bs total f fuel ((x :: xs).drop bs) (i + bs)
                      ⟨rest.result.map (fun l => rs ++ l), (x :: xs).take bs :: rest.calls,
                       (min (i + bs) total, total) :: rest.progress⟩).result = .error batchAbortError
                rw [hfail]
              · show (match f ((x :: xs).take bs) with
                  | .error _ => (⟨.error batchAbortError, [(x :: xs).take bs], []⟩ : BatchTrace τ ρ)
                  | .ok rs =>
                      let rest := processInBatchesFuel bs total f fuel ((x :: xs).drop bs) (i + bs)
                      ⟨rest.result.map (fun l => rs ++ l), (x :: xs).take bs :: rest.calls,
                       (min (i + bs) total, total) :: rest.progress⟩).calls
                    = (chunksOfFuel bs (fuel + 1) (x :: xs)).take (0 + 1)
                rw [hfail, hchunks]
                rfl
          | succ j =>
              have hok0 : (f ((x :: xs).take bs)).isOk = true := by
                apply hprev 0 (Nat.succ_pos j) ((x :: xs).take bs)
                rw [hchunks]
                simp
              have hjtl : (chunksOfFuel bs fuel ((x :: xs).drop bs))[j]? = some cj := by
                rw [hchunks] at hj
                simpa using hj
              have hprevtl : ∀ k, k < j → ∀ ck,
                  (chunksOfFuel bs fuel ((x :: xs).drop bs))[k]? = some ck → (f ck).isOk = true := by
                intro k hk ck hck
                apply hprev (k + 1) (by omega) ck
                rw [hchunks]
                simpa using hck
              obtain ⟨ihr, ihc⟩ := ih ((x :: xs).drop bs) (i + bs) j cj e hd hjtl hprevtl hfail
              match hf : f ((x :: xs).take bs) with
              | .error e0 => rw [hf] at hok0; simp [Except.isOk, Except.toBool] at hok0
              | .ok rs =>
                  have hstep : processInBatchesFuel bs total f (fuel + 1) (x :: xs) i =
                      ⟨(processInBatchesFuel bs total f fuel ((x :: xs).drop bs) (i + bs)).result.map
                          (fun l => rs ++ l),
                       (x :: xs).take bs ::
                          (processInBatchesFuel bs total f fuel ((x :: xs).drop bs) (i + bs)).calls,
                       (min (i + bs) total, total) ::
                          (processInBatchesFuel bs total f fuel ((x :: xs).drop bs) (i + bs)).progress⟩ := by
                    show (match f ((x :: xs).take bs) with
                      | .error _ => (⟨.error batchAbortError, [(x :: xs).take bs], []⟩ : BatchTrace τ ρ)
                      | .ok rs =>
                          let rest := processInBatchesFuel bs total f fuel ((x :: xs).drop bs) (i + bs)
                          ⟨rest.result.map (fun l => rs ++ l), (x :: xs).take bs :: rest.calls,
                           (min (i + bs) total, total) :: rest.progress⟩) = _
                    rw [hf]
                  rw [hstep]
                  constructor
                  · show (Except.map (fun l => rs ++ l)
                        (processInBatchesFuel bs total f fuel ((x :: xs).drop bs) (i + bs)).result)
                        = .error batchAbortError
                    rw [ihr]
                    rfl
                  · show ((x :: xs).take bs ::
                        (processInBatchesFuel bs total f fuel ((x :: xs).drop bs) (i + bs)).calls)
                        = (chunksOfFuel bs (fuel + 1) (x :: xs)).take (j + 1 + 1)
                    rw [ihc, hchunks]
                    rfl

/-- C6: if the chunk function fails on the j-th chunk (the earlier chunks all
succeeding), the Batch Processor's overall call raises — it returns the thrown
batch-abort error, not partial results — and the chunk function is invoked on
exactly the chunks up to and including the failing one, never on a later
chunk. -/
theorem c6_processInBatches_abort_on_failure {τ ρ : Type} (items : List τ) (bs : Nat)
    (f : List τ → Except JsError (List ρ)) (hbs : 0 < bs) (j : Nat) (cj : List τ)
    (e : JsError) (hj : (chunksOf bs items)[j]? = some cj)
    (hprev : ∀ k, k < j → ∀ ck, (chunksOf bs items)[k]? = some ck → (f ck).isOk = true)
    (hfail : f cj = .error e) :
    (processInBatches items bs f).result = .error batchAbortError
    ∧ (processInBatches items bs f).calls = (chunksOf bs items).take (j + 1) := by
  exact processInBatchesFuel_failAt bs items.length hbs f items.length items 0 j cj e
    (Nat.le_refl _) hj hprev hfail

/-- Concrete chunk function for the C6 witness: fails on the chunk [3, 4],
succeeds elsewhere. -/
def sampleFailingBatchFn : List Nat → Except JsError (List Nat) := fun c =>
  if c = [3, 4] then .error sampleNetworkError else .ok c

/-- Witness for C6: items [1..5] with chunk size 2 and a function failing on
the second chunk [3,4]: the overall call returns the thrown error and only
the chunks [1,2] and [3,4] are ever passed to the function — [5] is not. -/
theorem c6_processInBatches_abort_on_failure_witness :
    (processInBatches [1, 2, 3, 4, 5] 2 sampleFailingBatchFn).result = .error batchAbortError
    ∧ (processInBatches [1, 2, 3, 4, 5] 2 sampleFailingBatchFn).calls = [[1, 2], [3, 4]] := by
  have h := c6_processInBatches_abort_on_failure [1, 2, 3, 4, 5] 2 sampleFailingBatchFn
    (by decide) 1 [3, 4] sampleNetworkError (by decide)
    (by decide)
    (by decide)
  exact ⟨h.1, by rw [h.2]; decide⟩

/-- Object returned by enrichProfileFromLinkedIn (aiService.ts:152-161).  The
object literal always carries all eight keys; a key whose value is `undefined`
(the API profile lacked the field) is modelled as `none`.  `personal_emails`
and `phone_numbers` default to empty arrays (`|| []`), and `source_details` is
always the input URL, so those three are never `undefined`. -/
structure EnrichedProfile where
  full_name : Option String := none
  work_email : Option String := none
  personal_emails : List String := []
  phone_numbers : List String := []
  role : Option String := none
  country : Option String := none
  source_details : String := ""
  company : Option String := none
deriving Repr, DecidableEq

/-- Company record produced by enrichDomain / company search
(aiService.ts:179-186). -/
structure Company where
  id : String
  name : Option String := none
  domain : Option String := none
  industry : Option String := none
  size : Option String := none
deriving Repr, DecidableEq

/-- Prospect record (types.ts), restricted to the fields the dispatcher and
the enrichment hint construction read or write.  `full_name` is an `Option`
because the JS object spread in handleEnrichment can leave it `undefined`
(see mkNewProspect). -/
structure Prospect where
  id : String := ""
  company_id : String := ""
  created_at : String := ""
  full_name : Option String := none
  work_email : Option String := none
  personal_emails : List String := []
  phone_numbers : List String := []
  role : Option String := none
  country : Option String := none
  source_details : Option String := none
  company : Option String := none
deriving Repr, DecidableEq

/-- Per-recipient delivery log entry pushed on a successful send
(aiService.ts:783). -/
structure SendLogEntry where
  status : String
  «to» : Option String
  subject : String
deriving Repr, DecidableEq

/-- Heterogeneous rows of the `data` payload of an assistant message:
prospects (show prospects), enriched profile objects (LinkedIn enrichment),
companies (domain enrichment), or delivery log entries (send emails). -/
inductive RespItem
  | prospectItem (p : Prospect)
  | profileItem (pp : EnrichedProfile)
  | companyItem (c : Company)
  | logItem (l : SendLogEntry)
deriving Repr, DecidableEq

/-- Semantics of the JS `x || d` idiom on a possibly-undefined string: the
default is used when `x` is `undefined` or the empty string (both falsy). -/
def jsOr (a : Option String) (b : String) : String :=
  match a with
  | some s => if s != "" then s else b
  | none => b

/-- Truthiness of a possibly-undefined string (`undefined` and `""` are
falsy). -/
def jsTruthy (o : Option String) : Bool :=
  match o with
  | some s => s != ""
  | none => false

/-- Email body value (aiService.ts:897-945).  The body is modelled abstractly
by generateHtmlBody below. -/
structure HtmlBody where
  recipient : String
  intro : Option String
  bullet_points : Option (List String)
  closing : Option String
  preview : Bool
deriving Repr, DecidableEq

/-- generateHtmlBody (aiService.ts:897-945): renders the fixed HTML email
skeleton around the recipient name (`full_name || 'there'`), the intro,
bullet list and closing (each falling back to fixed copy when null or
undefined), wrapped in the full document only when not previewing.  No claim
depends on the literal markup text, so the embedding records the constituents
rather than the concatenated HTML string. -/
def generateHtmlBody (p : Prospect) (intro : Option String)
    (bullet_points : Option (List String)) (closing : Option String) (preview : Bool) :
    HtmlBody :=
  { recipient := jsOr p.full_name ("there"), intro := intro,
    bullet_points := bullet_points, closing := closing, preview := preview }

structure EmailPreview where
  prospect_name : String
  email : Option String
  subject : String
  body : HtmlBody
  warning : Option String := none
deriving Repr, DecidableEq

/-- AssistantMessageData (types.ts): the uniform response envelope of the
dispatcher.  `metrics` is a presence flag (its overview/activity payload is
opaque to every claim). -/
structure AssistantMessageData where
  text : String
  data : Option (List RespItem) := none
  newProspect : Option Prospect := none
  previews : Option (List EmailPreview) := none
  metrics : Bool := false
deriving Repr, DecidableEq

/-- Enrichment flavour selected by the dispatcher (aiService.ts:394). -/
inductive EnrichKind
  | linkedin | domain
deriving Repr, DecidableEq

/-- Fulfillment value of one enrichment promise: enrichProfileFromLinkedIn
resolves to a single profile object, enrichDomain resolves to an array of
companies (possibly empty, when the API response carries no `companies`). -/
inductive SettledValue
  | profile (pp : EnrichedProfile)
  | companies (cs : List Company)
deriving Repr, DecidableEq

/-- Flattening of one fulfilled value (aiService.ts:384):
`Array.isArray(value) ? successes.push(...value) : successes.push(value)`. -/
def settledToItems : SettledValue → List RespItem
  | .profile pp => [.profileItem pp]
  | .companies cs => cs.map .companyItem

/-- processSettledPromises (aiService.ts:377-391): walk the settled results in
order, flattening fulfilled values into `successes` and counting rejections
(the rejection reasons are logged, not kept). -/
def processSettledPromises : List (Except JsError SettledValue) → List RespItem × Nat
  | [] => ([], 0)
  | .ok v :: rest =>
      let (s, n) := processSettledPromises rest
      (settledToItems v ++ s, n)
  | .error _ :: rest =>
      let (s, n) := processSettledPromises rest
      (s, n + 1)

/-- Name of the enrichment kind as interpolated into the user-facing texts. -/
def enrichKindName : EnrichKind → String
  | .linkedin => "linkedin"
  | .domain => "domain"

/-- Failure text of handleEnrichment (aiService.ts:400). -/
def enrichFailureText (kind : EnrichKind) : String :=
  "Sorry, I couldn\x27t enrich any of the provided " ++ enrichKindName kind ++
    "s. Please check the console for errors."

/-- Success text of handleEnrichment (aiService.ts:403); the failure-count
suffix appears only when at least one target was rejected. -/
def enrichSuccessText (n errorCount : Nat) : String :=
  "✅ Enrichment complete. Successfully processed " ++ toString n ++ " item(s). " ++
    (if errorCount > 0 then "Failed to process " ++ toString errorCount ++ " item(s)." else "")

/-- Membership test of the JS `in` operator for the `full_name` key
(aiService.ts:407): the profile object literal always carries the key (even
with an `undefined` value), a company object never does. -/
def hasFullNameKey : RespItem → Bool
  | .profileItem _ => true
  | _ => false

/-- Construction of the new-record hint (aiService.ts:408-414).  The JS object
spread `{ id, company_id: '', created_at, full_name: 'N/A', ...successes[0] }`
copies every own property of the spread object, including keys holding
`undefined`; since the enrichProfileFromLinkedIn literal always carries all
eight keys, each of them overrides any default of the same name — in
particular the `full_name: 'N/A'` default is always overwritten by the
profile's own `full_name`, even when that value is `undefined`. -/
def mkNewProspect (freshId now : String) (pp : EnrichedProfile) : Prospect :=
  { id := freshId, company_id := "", created_at := now,
    full_name := pp.full_name, work_email := pp.work_email,
    personal_emails := pp.personal_emails, phone_numbers := pp.phone_numbers,
    role := pp.role, country := pp.country,
    source_details := some pp.source_details, company := pp.company }

/-- handleEnrichment (aiService.ts:393-419).  `enrich` gives each target's
settled outcome — `Promise.allSettled` fires all requests and awaits every
outcome, so the settled list has exactly one entry per target and no failure
stops the others.  `freshId` and `now` model `generateUUID()` and
`new Date().toISOString()` at the hint-construction site. -/
def handleEnrichment (urls : List String) (kind : EnrichKind)
    (enrich : String → Except JsError SettledValue) (freshId now : String) :
    AssistantMessageData :=
  let results := urls.map enrich
  let sc := processSettledPromises results
  match sc.1 with
  | [] => { text := enrichFailureText kind }
  | first :: _ =>
      let responseText := enrichSuccessText sc.1.length sc.2
      if kind = EnrichKind.linkedin ∧ hasFullNameKey first = true then
        match first with
        | .profileItem pp =>
            { text := responseText, data := some sc.1,
              newProspect := some (mkNewProspect freshId now pp) }
        | _ => { text := responseText, data := some sc.1 }
      else
        { text := responseText, data := some sc.1 }

theorem processSettledPromises_errorCount (rs : List (Except JsError SettledValue)) :
    (processSettledPromises rs).2 = rs.countP (fun r => !(Except.isOk r)) := by
  induction rs with
  | nil => rfl
  | cons r rest ih =>
      match r with
      | .ok v =>
          show (processSettledPromises rest).2 = _
          rw [ih]
          simp [List.countP_cons, Except.isOk, Except.toBool]
      | .error e =>
          show (processSettledPromises rest).2 + 1 = _
          rw [ih]
          simp [List.countP_cons, Except.isOk, Except.toBool]

theorem processSettledPromises_nil_iff (rs : List (Except JsError SettledValue))
    (hp : ∀ r ∈ rs, ∀ v, r = .ok v → ∃ pp, v = .profile pp) :
    (processSettledPromises rs).1 = [] ↔ ∀ r ∈ rs, Except.isOk r = false := by
  induction rs with
  | nil => simp [processSettledPromises]
  | cons r rest ih =>
      have hptl : ∀ r ∈ rest, ∀ v, r = .ok v → ∃ pp, v = .profile pp := by
        intro r hr v hv
        exact hp r (List.mem_cons_of_mem _ hr) v hv
      match r with
      | .ok v =>
          obtain ⟨pp, hpp⟩ := hp (.ok v) (List.mem_cons_self _ _) v rfl
          subst hpp
          show (settledToItems (.profile pp) ++ (processSettledPromises rest).1 = []) ↔ _
          simp [settledToItems, Except.isOk, Except.toBool]
      | .error e =>
          show ((processSettledPromises rest).1 = []) ↔ _
          rw [ih hptl]
          simp [Except.isOk, Except.toBool]

/-- C8 (amended): every target contributes exactly one settled outcome (all
are awaited — no stop at first failure); the second component is the
aggregate count of rejected targets, with no per-item detail kept; when at
least one success record was produced the result is the success message with
the succeeded records and the failure count; when no success record was
produced the result is the failure message with no data.  Success is measured
in produced records, not fulfilled targets: for profile enrichment (where
every fulfilled target yields exactly one record) "no records" coincides with
"every target failed", but a domain target fulfilled with an empty company
list produces no record, so the failure message can appear even though some
target succeeded (see the counterexample). -/
theorem c8_handleEnrichment_aggregation (urls : List String) (kind : EnrichKind)
    (enrich : String → Except JsError SettledValue) (freshId now : String) :
    (urls.map enrich).length = urls.length
    ∧ (processSettledPromises (urls.map enrich)).2 =
        (urls.map enrich).countP (fun r => !(Except.isOk r))
    ∧ ((processSettledPromises (urls.map enrich)).1 = [] →
        handleEnrichment urls kind enrich freshId now = { text := enrichFailureText kind })
    ∧ (∀ first rest, (processSettledPromises (urls.map enrich)).1 = first :: rest →
        (handleEnrichment urls kind enrich freshId now).text =
          enrichSuccessText (first :: rest).length
            (processSettledPromises (urls.map enrich)).2
        ∧ (handleEnrichment urls kind enrich freshId now).data = some (first :: rest))
    ∧ ((∀ u v, enrich u = .ok v → ∃ pp, v = .profile pp) →
        ((processSettledPromises (urls.map enrich)).1 = [] ↔
          ∀ u ∈ urls, Except.isOk (enrich u) = false)) := by
  refine ⟨List.length_map _ _, processSettledPromises_errorCount _, ?_, ?_, ?_⟩
  · intro hnil
    simp only [handleEnrichment]
    rw [hnil]
  · intro first rest hcons
    simp only [handleEnrichment]
    rw [hcons]
    refine ⟨?_, ?_⟩ <;> cases kind <;> cases first <;> simp [hasFullNameKey]
  · intro hp
    rw [processSettledPromises_nil_iff]
    · constructor
      · intro h u hu
        have := h (enrich u) (List.mem_map_of_mem enrich hu)
        exact this
      · intro h r hr
        obtain ⟨u, hu, rfl⟩ := List.mem_map.mp hr
        exact h u hu
    · intro r hr v hv
      obtain ⟨u, hu, rfl⟩ := List.mem_map.mp hr
      exact hp u v hv

/-- Concrete profile for the C8/C10 witnesses. -/
def sampleProfile1 : EnrichedProfile :=
  { full_name := some ("Jane Doe"), source_details := "https://www.linkedin.com/in/jane" }

/-- Concrete enrichment oracle: the first target fulfills with a profile, the
second rejects. -/
def sampleEnrichOracle : String → Except JsError SettledValue := fun u =>
  if u = "u1" then .ok (.profile sampleProfile1) else .error sampleNetworkError

/-- Witness for C8: with one fulfilled and one rejected target, the result is
the success message carrying the one succeeded record and the aggregate
failure count. -/
theorem c8_handleEnrichment_aggregation_witness :
    (handleEnrichment ["u1", "u2"] EnrichKind.linkedin sampleEnrichOracle "id-1" "t0").text =
      enrichSuccessText ([RespItem.profileItem sampleProfile1] : List RespItem).length
        (processSettledPromises (["u1", "u2"].map sampleEnrichOracle)).2
    ∧ (handleEnrichment ["u1", "u2"] EnrichKind.linkedin sampleEnrichOracle "id-1" "t0").data =
        some [RespItem.profileItem sampleProfile1] :=
  (c8_handleEnrichment_aggregation ["u1", "u2"] EnrichKind.linkedin sampleEnrichOracle
    ("id-1") ("t0")).2.2.2.1 (RespItem.profileItem sampleProfile1) [] (by decide)

/-- Concrete oracle whose single target fulfills with an empty company array
(a 200 domain-enrichment response without a `companies` field). -/
def sampleEmptyDomainOracle : String → Except JsError SettledValue := fun _ =>
  .ok (.companies [])

/-- Counterexample to C8 as stated: a domain target that succeeds (fulfilled,
zero rejections) but yields an empty company array makes handleEnrichment
return the failure message — so "reports a failure message only when every
target failed" is false: here no target failed. -/
theorem c8_handleEnrichment_failure_message_despite_success :
    (handleEnrichment ["acme.com"] EnrichKind.domain sampleEmptyDomainOracle
        ("id-1") ("t0")).text = enrichFailureText EnrichKind.domain
    ∧ Except.isOk (sampleEmptyDomainOracle ("acme.com")) = true
    ∧ (processSettledPromises (["acme.com"].map sampleEmptyDomainOracle)).2 = 0 :=
  ⟨rfl, rfl, rfl⟩

/-- C10 (amended): whenever the flattened success list of a LinkedIn
enrichment starts with a profile record, the returned new-record hint is
built from that first record alone — later successes appear only in `data`
(`rest` is arbitrary and the hint does not mention it) — with a freshly
generated id, empty company_id and the current timestamp; but the `full_name`
field of the hint is the first record's own `full_name` value verbatim (the
`'N/A'` default in the object literal is always overridden by the spread,
because the profile object always carries the `full_name` key, even when its
value is undefined). -/
theorem c10_newProspect_from_first_success (urls : List String)
    (enrich : String → Except JsError SettledValue) (freshId now : String)
    (pp : EnrichedProfile) (rest : List RespItem)
    (h : (processSettledPromises (urls.map enrich)).1 = RespItem.profileItem pp :: rest) :
    handleEnrichment urls EnrichKind.linkedin enrich freshId now =
      { text := enrichSuccessText (RespItem.profileItem pp :: rest).length
          (processSettledPromises (urls.map enrich)).2,
        data := some (RespItem.profileItem pp :: rest),
        newProspect := some (mkNewProspect freshId now pp) }
    ∧ (mkNewProspect freshId now pp).id = freshId
    ∧ (mkNewProspect freshId now pp).company_id = ""
    ∧ (mkNewProspect freshId now pp).created_at = now
    ∧ (mkNewProspect freshId now pp).full_name = pp.full_name := by
  refine ⟨?_, rfl, rfl, rfl, rfl⟩
  simp only [handleEnrichment]
  rw [h]
  simp [hasFullNameKey]

/-- Witness for C10: concrete two-target enrichment whose first target
fulfills; the hint is built from that profile with the fresh id. -/
theorem c10_newProspect_from_first_success_witness :
    handleEnrichment ["u1", "u2"] EnrichKind.linkedin sampleEnrichOracle ("id-1") ("t0") =
      { text := enrichSuccessText ([RespItem.profileItem sampleProfile1] : List RespItem).length
          (processSettledPromises (["u1", "u2"].map sampleEnrichOracle)).2,
        data := some [RespItem.profileItem sampleProfile1],
        newProspect := some (mkNewProspect ("id-1") ("t0") sampleProfile1) }
    ∧ (mkNewProspect ("id-1") ("t0") sampleProfile1).id = "id-1"
    ∧ (mkNewProspect ("id-1") ("t0") sampleProfile1).company_id = ""
    ∧ (mkNewProspect ("id-1") ("t0") sampleProfile1).created_at = "t0"
    ∧ (mkNewProspect ("id-1") ("t0") sampleProfile1).full_name = sampleProfile1.full_name :=
  c10_newProspect_from_first_success ["u1", "u2"] sampleEnrichOracle ("id-1") ("t0")
    sampleProfile1 [] (by decide)

/-- Profile record that lacks a full_name (the API returned an empty or
nameless profile; the object literal still carries the key with value
undefined). -/
def sampleProfileNoName : EnrichedProfile :=
  { source_details := "https://www.linkedin.com/in/x" }

/-- Oracle whose single LinkedIn target fulfills with the nameless profile. -/
def sampleNoNameOracle : String → Except JsError SettledValue := fun _ =>
  .ok (.profile sampleProfileNoName)

/-- Counterexample to C10 as stated: the first successful result lacks a
full_name, yet the returned hint's full_name is not the claimed default
"N/A" — the spread overrides the default with the profile's undefined value,
so the hint's full_name is absent. -/
theorem c10_newProspect_full_name_not_defaulted :
    sampleProfileNoName.full_name = none
    ∧ (handleEnrichment ["https://www.linkedin.com/in/x"] EnrichKind.linkedin
        sampleNoNameOracle ("id-9") ("t9")).newProspect
        = some (mkNewProspect ("id-9") ("t9") sampleProfileNoName)
    ∧ (mkNewProspect ("id-9") ("t9") sampleProfileNoName).full_name = none
    ∧ (decide ((mkNewProspect ("id-9") ("t9") sampleProfileNoName).full_name = some ("N/A"))
        = false) := by
  refine ⟨rfl, rfl, rfl, by decide⟩

/-- Draft content object for one prospect, as returned inside the `emails`
array of the bulk-generation LLM response (aiService.ts:880-894): subject,
intro, bullet points and closing, keyed by the prospect id.  Fields the LLM
omitted are `undefined`, modelled as `none`. -/
structure EmailContent where
  id : String
  subject : Option String := none
  intro : Option String := none
  bullet_points : Option (List String) := none
  closing : Option String := none
deriving Repr, DecidableEq

/-- Lookup in a JS `Map` built by `new Map(pairs)`: later pairs with the same
key overwrite earlier ones, so `get` returns the last binding. -/
def mapGet (m : List (String × EmailContent)) (k : String) : Option EmailContent :=
  (m.reverse.find? (fun kv => kv.1 == k)).map (fun kv => kv.2)

/-- State of the module-level `emailContentCache` (aiService.ts:697): `none`
models `null`, `some pairs` models a `Map` (truthy even when empty). -/
abbrev CacheState : Type := Option (List (String × EmailContent))

/-- Construction of the content map (aiService.ts:766 and 826):
`new Map(generatedContents.flat().map(content => [content.id, content]))`.
`processInBatches` already returns a flat array of content objects, so
`.flat()` is the identity. -/
def buildContentMap (contents : List EmailContent) : List (String × EmailContent) :=
  contents.map (fun c => (c.id, c))

/-- Data source mode flag (types.ts). -/
inductive DataSource
  | contactout | webscraping
deriving Repr, DecidableEq

/-- Oracles for every outbound interaction of the dispatcher, one
deterministic outcome per input: the LLM classification result, the two
per-target enrichers, the search and web-scrape handlers (whose internals
are pure API orchestration), the replies fetch, the per-batch bulk
content-generation LLM call, the per-prospect send call, and the values of
`generateUUID()` / `new Date().toISOString()`. -/
structure DispatchEnv where
  llmIntent : Except JsError Intent
  enrichLinkedin : String → Except JsError SettledValue
  enrichDomain : String → Except JsError SettledValue
  search : String → Except JsError AssistantMessageData
  webScrape : String → Except JsError AssistantMessageData
  checkReplies : Except JsError Unit
  generate : List Prospect → Except JsError (List EmailContent)
  send : Prospect → Except JsError Unit
  freshId : String
  now : String

/-- sendEmail closure (aiService.ts:769-788): look the prospect's draft up in
the content map — a missing draft rejects with "No AI content for ..." — then
post the rendered email; a failed post rethrows
`error.response?.data?.message || error.message || 'Unknown error sending
email'`; a successful post fulfills with the delivery log entry.  (JS string
interpolation renders an undefined full_name as "undefined".) -/
def sendEmail (m : List (String × EmailContent)) (send : Prospect → Except JsError Unit)
    (p : Prospect) : Except JsError SendLogEntry :=
  match mapGet m p.id with
  | none => .error { message := "No AI content for " ++ p.full_name.getD ("undefined") }
  | some _ =>
      match send p with
      | .ok _ => .ok { status := "✅ Sent", «to» := p.work_email,
                       subject := "Email for " ++ p.full_name.getD ("undefined") }
      | .error e =>
          .error { message := (jsOr e.respDataMessage
            (jsOr (some e.message) ("Unknown error sending email"))) }

/-- forEach over one batch's settled send outcomes (aiService.ts:796-804):
push fulfilled log entries in order and bump the matching counter. -/
def settleOutcomes : List (Except JsError SendLogEntry) → List SendLogEntry × Nat × Nat
  | [] => ([], 0, 0)
  | .ok v :: rest =>
      let r := settleOutcomes rest
      (v :: r.1, r.2.1 + 1, r.2.2)
  | .error _ :: rest =>
      let r := settleOutcomes rest
      (r.1, r.2.1, r.2.2 + 1)

/-- Chunked send loop (aiService.ts:794-806) over an explicit chunk list:
each batch is sent with `Promise.allSettled` (all outcomes awaited), and the
log/counter accumulators grow across batches in order. -/
def sendStageGo (m : List (String × EmailContent)) (send : Prospect → Except JsError Unit) :
    List (List Prospect) → List SendLogEntry × Nat × Nat
  | [] => ([], 0, 0)
  | batch :: rest =>
      let here := settleOutcomes (batch.map (sendEmail m send))
      let later := sendStageGo m send rest
      (here.1 ++ later.1, here.2.1 + later.2.1, here.2.2 + later.2.2)

/-- Sending stage (aiService.ts:790-806): the prospects are processed through
processInBatches with chunk size 10; the batch function settles every send and
returns `[]`, so it never rejects and the loop visits exactly the chunks of
the prospect list in order (cf. processInBatchesFuel_allOk) — hence the stage
is the chunked traversal of `chunksOf 10 prospects`.  Returns the delivery
log, the success count and the failure count. -/
def sendStage (prospects : List Prospect) (m : List (String × EmailContent))
    (send : Prospect → Except JsError Unit) : List SendLogEntry × Nat × Nat :=
  sendStageGo m send (chunksOf 10 prospects)

/-- Total-failure summary text (aiService.ts:810). -/
def sendFailText (ec : Nat) : String :=
  "❌ Campaign failed. Could not send any of the " ++ toString ec ++
    " email(s). Please check the server logs for details."

/-- Partial-success summary text (aiService.ts:812). -/
def sendPartialText (sc ec : Nat) : String :=
  "⚠️ Campaign partially complete. Sent " ++ toString sc ++
    " emails, but failed to send " ++ toString ec ++ " email(s)."

/-- Full-success summary text (aiService.ts:814). -/
def sendFullText (sc : Nat) : String :=
  "✅ Campaign complete. Sent " ++ toString sc ++ " emails successfully."

/-- Summary text selection (aiService.ts:808-815). -/
def sendSummary (sc ec : Nat) : String :=
  if ec > 0 ∧ sc = 0 then sendFailText ec
  else if ec > 0 then sendPartialText sc ec
  else sendFullText sc

/-- Preview construction (aiService.ts:829-843): one row per processed
prospect; a prospect whose draft is missing from the content map gets the
fallback body and a warning. -/
def buildPreviews (prospects : List Prospect) (m : List (String × EmailContent)) :
    List EmailPreview :=
  prospects.map (fun p =>
    match mapGet m p.id with
    | some content =>
        { prospect_name := jsOr p.full_name ("N/A"), email := p.work_email,
          subject := jsOr content.subject ("An idea for " ++ jsOr p.company ("your company")),
          body := generateHtmlBody p content.intro content.bullet_points content.closing true,
          warning := none }
    | none =>
        { prospect_name := jsOr p.full_name ("N/A"), email := p.work_email,
          subject := "An idea for " ++ jsOr p.company ("your company"),
          body := generateHtmlBody p none none none true,
          warning := some ("AI content generation failed for this prospect.") })

/-- Prospect selection pipeline of the preview/send block
(aiService.ts:734-745): restrict to the selected ids when any are selected
(ids must also be truthy), keep only prospects with a truthy work_email, and
honour a positive `count` from the prompt by truncation. -/
def prospectsToProcess (intent : Intent) (allProspects : List Prospect)
    (selectedIds : List String) : List Prospect :=
  let base := if selectedIds.length > 0 then
      allProspects.filter (fun p => p.id != "" && selectedIds.contains p.id)
    else allProspects
  let withEmail := base.filter (fun p => jsTruthy p.work_email)
  match intent.count with
  | some c => if c > 0 then withEmail.take c else withEmail
  | none => withEmail

/-- Outcome of one dispatcher run: the returned (or thrown) value, the state
of the draft cache afterwards, and the number of bulk content-generation LLM
calls made during the run. -/
structure DispatchOutcome where
  result : Except JsError AssistantMessageData
  cache : CacheState
  genCalls : Nat
deriving Repr, DecidableEq

/-- Friendly-message mapping of the dispatcher's outer catch
(aiService.ts:868-877): 403 and 404 responses get fixed texts, anything else
the generic interpolation. -/
def friendlyMessage (e : JsError) : String :=
  if e.status = some 403 then
    "An error occurred: You may be out of credits or do not have access to this endpoint."
  else if e.status = some 404 then
    "No match found for your request."
  else "An error occurred: " ++ e.message

/-- Preview/send command block (aiService.ts:728-851) including its inner
try/catch, which converts any throw from content generation into an
`An error occurred: ...` text — so the block always returns a message.
Returns the message, the cache state after the block, and the number of bulk
content-generation LLM calls made. -/
def previewSendBlock (intent : Intent) (allProspects : List Prospect)
    (selectedIds : List String) (env : DispatchEnv) (cache : CacheState)
    (isSending : Bool) : AssistantMessageData × CacheState × Nat :=
  let pts := prospectsToProcess intent allProspects selectedIds
  if pts.length = 0 then
    ({ text := "No prospects with valid emails found to " ++
        (if isSending then "send" else "preview") ++ "." }, cache, 0)
  else if isSending then
    match cache with
    | some m =>
        let r := sendStage pts m env.send
        ({ text := sendSummary r.2.1 r.2.2, data := some (r.1.map RespItem.logItem) },
         none, 0)
    | none =>
        let t := processInBatches pts 10 env.generate
        match t.result with
        | .error e => ({ text := "An error occurred: " ++ e.message }, none, t.calls.length)
        | .ok contents =>
            let m := buildContentMap contents
            let r := sendStage pts m env.send
            ({ text := sendSummary r.2.1 r.2.2, data := some (r.1.map RespItem.logItem) },
             none, t.calls.length)
  else
    let t := processInBatches pts 10 env.generate
    match t.result with
    | .error e => ({ text := "An error occurred: " ++ e.message }, cache, t.calls.length)
    | .ok contents =>
        let m := buildContentMap contents
        ({ text := "✅ Generated " ++ toString (buildPreviews pts m).length ++
            " email previews.",
           previews := some (buildPreviews pts m) }, some m, t.calls.length)

/-- Intent switch inside the dispatcher's try block (aiService.ts:715-867).
Handler rejections surface as `.error` here and are mapped by the outer catch
in processUserPrompt; the enrichment handler never rejects (allSettled), and
the preview/send block never rejects (inner catch). -/
def dispatchSwitch (intent : Intent) (allProspects : List Prospect)
    (selectedIds : List String) (env : DispatchEnv) (cache : CacheState) :
    Except JsError AssistantMessageData × CacheState × Nat :=
  match intent.type with
  | .enrich_linkedin =>
      (.ok (handleEnrichment intent.values EnrichKind.linkedin env.enrichLinkedin
        env.freshId env.now), cache, 0)
  | .enrich_domain =>
      (.ok (handleEnrichment intent.values EnrichKind.domain env.enrichDomain
        env.freshId env.now), cache, 0)
  | .search => (env.search (intent.values.headD ("undefined")), cache, 0)
  | .web_scrape => (env.webScrape (intent.values.headD ("undefined")), cache, 0)
  | .command =>
      match intent.command with
      | some "show prospects" =>
          (.ok { text := ("Here are the " ++ toString allProspects.length ++
                   " prospects from your current session:"),
                 data := some (allProspects.map RespItem.prospectItem) }, cache, 0)
      | some "generate previews" =>
          let r := previewSendBlock intent allProspects selectedIds env cache false
          (.ok r.1, r.2.1, r.2.2)
      | some "send emails" =>
          let r := previewSendBlock intent allProspects selectedIds env cache true
          (.ok r.1, r.2.1, r.2.2)
      | some "check replies" =>
          match env.checkReplies with
          | .ok _ =>
              (.ok { text := "✅ Fetched latest campaign activity from the database. Here\x27s the overview:",
                     metrics := true }, cache, 0)
          | .error e => (.error e, cache, 0)
      | other =>
          (.ok { text := "I received an unknown command: \x27" ++ other.getD ("undefined") ++
              "\x27. I\x27m not sure how to handle that." }, cache, 0)
  | .unknown =>
      (.ok { text := "I\x27m sorry, I don\x27t understand that command. You can ask me to \x27show prospects\x27, enrich a LinkedIn URL, or search for people and companies." },
       cache, 0)

/-- processUserPrompt (aiService.ts:699-878), the Dispatcher.  Control flow of
the source: (1) `await getIntent(prompt)` runs before the try block, so a
classification failure propagates to the caller as a rejection; (2) when the
data source is `webscraping` and the intent is not a command, the prompt is
force-routed to handleWebScraping and returned — also before the try block
and before the cache-clearing statement, so a rejection propagates and the
draft cache is left untouched; (3) the cache is nulled whenever the intent's
command is not `'send emails'`; (4) the intent switch runs inside the try
block, whose catch converts any escaped error into a friendly text keyed by
HTTP status. -/
def processUserPrompt (prompt : String) (allProspects : List Prospect)
    (selectedIds : List String) (dataSource : DataSource) (env : DispatchEnv)
    (cache0 : CacheState) : DispatchOutcome :=
  match getIntent prompt env.llmIntent with
  | (.error e, _) => ⟨.error e, cache0, 0⟩
  | (.ok intent, _) =>
      if intent.type ≠ IntentType.command ∧ dataSource = DataSource.webscraping then
        ⟨env.webScrape prompt, cache0, 0⟩
      else
        let cache1 := if intent.command ≠ some "send emails" then none else cache0
        let r := dispatchSwitch intent allProspects selectedIds env cache1
        match r.1 with
        | .ok msg => ⟨.ok msg, r.2.1, r.2.2⟩
        | .error e => ⟨.ok { text := friendlyMessage e }, r.2.1, r.2.2⟩

theorem settleOutcomes_spec (rs : List (Except JsError SendLogEntry)) :
    (settleOutcomes rs).1.length = (settleOutcomes rs).2.1
    ∧ (settleOutcomes rs).2.1 + (settleOutcomes rs).2.2 = rs.length := by
  induction rs with
  | nil => exact ⟨rfl, rfl⟩
  | cons r rest ih =>
      match r with
      | .ok v =>
          refine ⟨?_, ?_⟩
          · show ((settleOutcomes rest).1.length + 1) = (settleOutcomes rest).2.1 + 1
            rw [ih.1]
          · show (settleOutcomes rest).2.1 + 1 + (settleOutcomes rest).2.2 = rest.length + 1
            have := ih.2
            omega
      | .error e =>
          refine ⟨?_, ?_⟩
          · exact ih.1
          · show (settleOutcomes rest).2.1 + ((settleOutcomes rest).2.2 + 1) = rest.length + 1
            have := ih.2
            omega

theorem sendStageGo_spec (m : List (String × EmailContent))
    (send : Prospect → Except JsError Unit) (chs : List (List Prospect)) :
    (sendStageGo m send chs).1.length = (sendStageGo m send chs).2.1
    ∧ (sendStageGo m send chs).2.1 + (sendStageGo m send chs).2.2 = chs.flatten.length := by
  induction chs with
  | nil => exact ⟨rfl, rfl⟩
  | cons batch rest ih =>
      have hs := settleOutcomes_spec (batch.map (sendEmail m send))
      have hlen : (batch.map (sendEmail m send)).length = batch.length := List.length_map _ _
      refine ⟨?_, ?_⟩
      · show ((settleOutcomes (batch.map (sendEmail m send))).1 ++ (sendStageGo m send rest).1).length
            = (settleOutcomes (batch.map (sendEmail m send))).2.1 + (sendStageGo m send rest).2.1
        rw [List.length_append, hs.1, ih.1]
      · show (settleOutcomes (batch.map (sendEmail m send))).2.1 + (sendStageGo m send rest).2.1
            + ((settleOutcomes (batch.map (sendEmail m send))).2.2 + (sendStageGo m send rest).2.2)
            = (batch :: rest).flatten.length
        have h1 := hs.2
        have h2 := ih.2
        rw [List.flatten_cons, List.length_append]
        omega

/-- C9: for every send run, the success count plus the failure count equals
the number of prospects processed; the delivery log has exactly one entry per
successful send; and with a non-empty prospect list the summary text takes
exactly one of three mutually exclusive forms, keyed by the counts: total
failure (successes = 0, failures > 0), partial (both > 0), or full success
(failures = 0). -/
theorem c9_sendStage_accounting (prospects : List Prospect)
    (m : List (String × EmailContent)) (send : Prospect → Except JsError Unit) :
    (sendStage prospects m send).2.1 + (sendStage prospects m send).2.2 = prospects.length
    ∧ (sendStage prospects m send).1.length = (sendStage prospects m send).2.1
    ∧ (0 < prospects.length →
        (((sendStage prospects m send).2.1 = 0 ∧ 0 < (sendStage prospects m send).2.2
            ∧ sendSummary (sendStage prospects m send).2.1 (sendStage prospects m send).2.2
              = sendFailText (sendStage prospects m send).2.2)
          ∨ (0 < (sendStage prospects m send).2.1 ∧ 0 < (sendStage prospects m send).2.2
            ∧ sendSummary (sendStage prospects m send).2.1 (sendStage prospects m send).2.2
              = sendPartialText (sendStage prospects m send).2.1 (sendStage prospects m send).2.2)
          ∨ ((sendStage prospects m send).2.2 = 0
            ∧ sendSummary (sendStage prospects m send).2.1 (sendStage prospects m send).2.2
              = sendFullText (sendStage prospects m send).2.1))) := by
  have hgo := sendStageGo_spec m send (chunksOf 10 prospects)
  have hjoin : (chunksOf 10 prospects).flatten = prospects :=
    chunksOfFuel_join 10 (by omega) prospects.length prospects (Nat.le_refl _)
  have hsum : (sendStage prospects m send).2.1 + (sendStage prospects m send).2.2
      = prospects.length := by
    show (sendStageGo m send (chunksOf 10 prospects)).2.1
        + (sendStageGo m send (chunksOf 10 prospects)).2.2 = prospects.length
    rw [hgo.2, hjoin]
  refine ⟨hsum, hgo.1, ?_⟩
  intro hne
  rcases Nat.eq_zero_or_pos (sendStage prospects m send).2.2 with hec | hec
  · right; right
    refine ⟨hec, ?_⟩
    simp [sendSummary, hec]
  · rcases Nat.eq_zero_or_pos (sendStage prospects m send).2.1 with hsc | hsc
    · left
      refine ⟨hsc, hec, ?_⟩
      simp [sendSummary, hsc, hec]
    · right; left
      refine ⟨hsc, hec, ?_⟩
      have hsc0 : (sendStage prospects m send).2.1 ≠ 0 := by omega
      simp [sendSummary, hec, hsc0]

/-- Concrete prospects, draft map and send oracle for the C9 witness: the
first prospect has a cached draft and sends successfully, the second has no
draft (its send settles as a rejection). -/
def sampleProspect : Prospect :=
  { id := "p1", full_name := some ("Ann"), work_email := some ("a@b.co") }

def sampleProspect2 : Prospect :=
  { id := "p2", full_name := some ("Bob"), work_email := some ("b@b.co") }

def sampleDraft : EmailContent :=
  { id := "p1", subject := some ("S"), intro := some ("I"),
    bullet_points := some ["B1", "B2"], closing := some ("C") }

def sampleSendOk : Prospect → Except JsError Unit := fun _ => .ok ()

/-- Witness for C9: two prospects, one draft — one send succeeds, one fails,
so counts sum to 2, the log has one entry, and the summary takes the partial
form. -/
theorem c9_sendStage_accounting_witness :
    (sendStage [sampleProspect, sampleProspect2] [("p1", sampleDraft)] sampleSendOk).2.1
      + (sendStage [sampleProspect, sampleProspect2] [("p1", sampleDraft)] sampleSendOk).2.2 = 2
    ∧ (sendStage [sampleProspect, sampleProspect2] [("p1", sampleDraft)] sampleSendOk).1.length
      = (sendStage [sampleProspect, sampleProspect2] [("p1", sampleDraft)] sampleSendOk).2.1
    ∧ sendSummary 1 1 = sendPartialText 1 1 := by
  have h := c9_sendStage_accounting [sampleProspect, sampleProspect2]
    [("p1", sampleDraft)] sampleSendOk
  exact ⟨h.1, h.2.1, by decide⟩

/-- C1 (amended): once intent classification has succeeded and the run is not
force-routed through the web-scraping shortcut, the Dispatcher never
propagates an exception: the intent switch runs inside the try block, any
error it rethrows is converted by the outer catch into a returned text
message, and that conversion maps HTTP status 403 to the credits/access
message and 404 to the no-match message.  (The claim's universal version is
false: the `await getIntent(prompt)` call and the web-scraping shortcut run
before the try block, so their rejections do propagate — see the
counterexample.) -/
theorem c1_dispatcher_converts_handler_errors (prompt : String)
    (allProspects : List Prospect) (selectedIds : List String) (ds : DataSource)
    (env : DispatchEnv) (cache0 : CacheState) (intent : Intent) (b : Bool)
    (hclass : getIntent prompt env.llmIntent = (.ok intent, b))
    (hroute : intent.type = IntentType.command ∨ ds ≠ DataSource.webscraping) :
    (∃ msg, (processUserPrompt prompt allProspects selectedIds ds env cache0).result
      = .ok msg)
    ∧ (∀ e, (dispatchSwitch intent allProspects selectedIds env
          (if intent.command ≠ some "send emails" then none else cache0)).1 = .error e →
        (processUserPrompt prompt allProspects selectedIds ds env cache0).result
          = .ok { text := friendlyMessage e })
    ∧ (∀ e : JsError, e.status = some 403 → friendlyMessage e
        = "An error occurred: You may be out of credits or do not have access to this endpoint.")
    ∧ (∀ e : JsError, e.status = some 404 → friendlyMessage e
        = "No match found for your request.") := by
  have hcond : ¬ (intent.type ≠ IntentType.command ∧ ds = DataSource.webscraping) := by
    rcases hroute with h | h
    · intro hc
      exact hc.1 h
    · intro hc
      exact h hc.2
  have hpu : processUserPrompt prompt allProspects selectedIds ds env cache0 =
      (match (dispatchSwitch intent allProspects selectedIds env
          (if intent.command ≠ some "send emails" then none else cache0)).1 with
       | .ok msg => ⟨.ok msg,
           (dispatchSwitch intent allProspects selectedIds env
             (if intent.command ≠ some "send emails" then none else cache0)).2.1,
           (dispatchSwitch intent allProspects selectedIds env
             (if intent.command ≠ some "send emails" then none else cache0)).2.2⟩
       | .error e => ⟨.ok { text := friendlyMessage e },
           (dispatchSwitch intent allProspects selectedIds env
             (if intent.command ≠ some "send emails" then none else cache0)).2.1,
           (dispatchSwitch intent allProspects selectedIds env
             (if intent.command ≠ some "send emails" then none else cache0)).2.2⟩) := by
    unfold processUserPrompt
    rw [hclass]
    simp only []
    rw [if_neg hcond]
  refine ⟨?_, ?_, ?_, ?_⟩
  · match hsw : (dispatchSwitch intent allProspects selectedIds env
        (if intent.command ≠ some "send emails" then none else cache0)).1 with
    | .ok msg =>
        refine ⟨msg, ?_⟩
        rw [hpu, hsw]
    | .error e =>
        refine ⟨{ text := friendlyMessage e }, ?_⟩
        rw [hpu, hsw]
  · intro e herr
    rw [hpu, herr]
  · intro e h
    simp [friendlyMessage, h]
  · intro e h
    simp [friendlyMessage, h]

/-- Axios error carrying HTTP status 403. -/
def err403 : JsError :=
  { message := "Request failed with status code 403", isAxios := true, status := some 403 }

/-- Axios error carrying HTTP status 404. -/
def err404 : JsError :=
  { message := "Request failed with status code 404", isAxios := true, status := some 404 }

/-- Environment for the C1 witness: the LLM classifies the prompt as a search
and the search handler rejects with HTTP 403. -/
def c1WitnessEnv : DispatchEnv :=
  { llmIntent := .ok { type := IntentType.search, values := ["find ceos"] },
    enrichLinkedin := fun _ => .error sampleNetworkError,
    enrichDomain := fun _ => .error sampleNetworkError,
    search := fun _ => .error err403,
    webScrape := fun _ => .ok { text := "ok" },
    checkReplies := .ok (),
    generate := fun _ => .ok [],
    send := fun _ => .ok (),
    freshId := "id-0", now := "t0" }

/-- Witness for C1: a search whose handler rejects with 403 yields the
non-throwing credits/access message. -/
theorem c1_dispatcher_converts_handler_errors_witness :
    (processUserPrompt ("find ceos") [] [] DataSource.contactout c1WitnessEnv none).result
      = .ok { text := "An error occurred: You may be out of credits or do not have access to this endpoint." } := by
  have h := c1_dispatcher_converts_handler_errors ("find ceos") [] [] DataSource.contactout
    c1WitnessEnv none { type := IntentType.search, values := ["find ceos"] } true
    (by rfl) (Or.inr (by decide))
  have h2 := h.2.1 err403 (by rfl)
  have h3 := h.2.2.1 err403 rfl
  rw [h2, h3]

/-- Environment under which intent classification itself rejects (the LLM
call fails; the prompt has no LinkedIn URL so the regex shortcut does not
fire). -/
def c1CounterEnv : DispatchEnv :=
  { llmIntent := .error sampleNetworkError,
    enrichLinkedin := fun _ => .error sampleNetworkError,
    enrichDomain := fun _ => .error sampleNetworkError,
    search := fun _ => .ok { text := "ok" },
    webScrape := fun _ => .ok { text := "ok" },
    checkReplies := .ok (),
    generate := fun _ => .ok [],
    send := fun _ => .ok (),
    freshId := "id-0", now := "t0" }

/-- Environment whose web-scrape handler rejects with HTTP 404 while the data
source is webscraping (force-routed shortcut). -/
def c1CounterEnv2 : DispatchEnv :=
  { llmIntent := .ok { type := IntentType.web_scrape, values := ["acme.com"] },
    enrichLinkedin := fun _ => .error sampleNetworkError,
    enrichDomain := fun _ => .error sampleNetworkError,
    search := fun _ => .ok { text := "ok" },
    webScrape := fun _ => .error err404,
    checkReplies := .ok (),
    generate := fun _ => .ok [],
    send := fun _ => .ok (),
    freshId := "id-0", now := "t0" }

/-- Counterexample to C1 as stated: (1) when the LLM classification call
rejects on the prompt "hello", processUserPrompt itself rejects with that
error — the exception propagates to the caller instead of being converted to
a text message; (2) when the web-scraping data source is active and the
web-scrape handler rejects with HTTP 404, the rejection also propagates
(the shortcut runs before the try block), instead of the claimed no-match
message. -/
theorem c1_dispatcher_exception_escapes :
    (processUserPrompt ("hello") [] [] DataSource.contactout c1CounterEnv none).result
      = .error sampleNetworkError
    ∧ (processUserPrompt ("scrape acme.com") [] [] DataSource.webscraping c1CounterEnv2
        none).result = .error err404 := by
  refine ⟨rfl, rfl⟩

/-- C2 (amended): draft-cache lifecycle of the Dispatcher.  (A) A send-emails
command finding a populated cache reuses it: zero content-generation LLM
calls are made, and the cache is cleared once prospects are actually
processed.  (B) Any prompt that reaches the main handler chain (a command, or
any intent outside webscraping mode) with a command other than 'send emails'
is handled from a cleared cache — its whole outcome is independent of the
incoming cache.  (C) A generate-previews command whose generation succeeds on
a non-empty prospect set leaves the cache holding exactly the generated draft
map.  (The claim's universal invalidation clause is false: a non-command
prompt processed while the webscraping data source is active returns through
the shortcut before the cache-clearing statement — see the counterexample,
where a stale draft set then flows into a later send.) -/
theorem c2_draft_cache_lifecycle (prompt : String) (allProspects : List Prospect)
    (selectedIds : List String) (ds : DataSource) (env : DispatchEnv)
    (intent : Intent) (b : Bool)
    (hclass : getIntent prompt env.llmIntent = (.ok intent, b)) :
    (∀ m, intent.type = IntentType.command → intent.command = some "send emails" →
      (processUserPrompt prompt allProspects selectedIds ds env (some m)).genCalls = 0
      ∧ (prospectsToProcess intent allProspects selectedIds ≠ [] →
          (processUserPrompt prompt allProspects selectedIds ds env (some m)).cache = none))
    ∧ (intent.command ≠ some "send emails" →
        (intent.type = IntentType.command ∨ ds ≠ DataSource.webscraping) →
        ∀ c c', processUserPrompt prompt allProspects selectedIds ds env c
          = processUserPrompt prompt allProspects selectedIds ds env c')
    ∧ (∀ contents c, intent.type = IntentType.command →
        intent.command = some "generate previews" →
        prospectsToProcess intent allProspects selectedIds ≠ [] →
        (processInBatches (prospectsToProcess intent allProspects selectedIds) 10
          env.generate).result = .ok contents →
        (processUserPrompt prompt allProspects selectedIds ds env c).cache
          = some (buildContentMap contents)) := by
  refine ⟨?_, ?_, ?_⟩
  · intro m htype hcmd
    have hcond : ¬ (intent.type ≠ IntentType.command ∧ ds = DataSource.webscraping) := by
      rw [htype]
      simp
    have hcache1 : (if intent.command ≠ some "send emails" then none else some m)
        = some m := by
      rw [hcmd]
      simp
    have hpu : processUserPrompt prompt allProspects selectedIds ds env (some m)
        = ⟨.ok (previewSendBlock intent allProspects selectedIds env (some m) true).1,
           (previewSendBlock intent allProspects selectedIds env (some m) true).2.1,
           (previewSendBlock intent allProspects selectedIds env (some m) true).2.2⟩ := by
      unfold processUserPrompt
      rw [hclass]
      simp only []
      rw [if_neg hcond]
      simp only [hcache1]
      unfold dispatchSwitch
      rw [htype, hcmd]
      exact rfl
    rw [hpu]
    show (previewSendBlock intent allProspects selectedIds env (some m) true).2.2 = 0
      ∧ (prospectsToProcess intent allProspects selectedIds ≠ [] →
          (previewSendBlock intent allProspects selectedIds env (some m) true).2.1 = none)
    unfold previewSendBlock
    by_cases hpts : (prospectsToProcess intent allProspects selectedIds).length = 0
    · rw [if_pos hpts]
      refine ⟨rfl, ?_⟩
      intro hne
      exact absurd (List.length_eq_zero.mp hpts) hne
    · rw [if_neg hpts]
      exact ⟨rfl, fun _ => rfl⟩
  · intro hcmd hroute c c'
    have hcond : ¬ (intent.type ≠ IntentType.command ∧ ds = DataSource.webscraping) := by
      rcases hroute with h | h
      · intro hc
        exact hc.1 h
      · intro hc
        exact h hc.2
    unfold processUserPrompt
    rw [hclass]
    simp only []
    rw [if_neg hcond, if_neg hcond, if_pos hcmd, if_pos hcmd]
  · intro contents c htype hcmd hne hgen
    have hcond : ¬ (intent.type ≠ IntentType.command ∧ ds = DataSource.webscraping) := by
      rw [htype]
      simp
    have hcache1 : (if intent.command ≠ some "send emails" then none else c)
        = none := by
      rw [hcmd]
      simp
    have hpu : processUserPrompt prompt allProspects selectedIds ds env c
        = ⟨.ok (previewSendBlock intent allProspects selectedIds env none false).1,
           (previewSendBlock intent allProspects selectedIds env none false).2.1,
           (previewSendBlock intent allProspects selectedIds env none false).2.2⟩ := by
      unfold processUserPrompt
      rw [hclass]
      simp only []
      rw [if_neg hcond]
      simp only [hcache1]
      unfold dispatchSwitch
      rw [htype, hcmd]
      exact rfl
    rw [hpu]
    show (previewSendBlock intent allProspects selectedIds env none false).2.1
      = some (buildContentMap contents)
    unfold previewSendBlock
    rw [if_neg (fun h => hne (List.length_eq_zero.mp h))]
    simp only []
    rw [hgen]
    exact rfl

/-- Send-emails command intent as produced by the LLM classifier. -/
def c2SendIntent : Intent :=
  { type := IntentType.command, command := some ("send emails") }

/-- Environment whose classifier yields the send-emails command and whose
content generation would fail if it were ever invoked (so a successful send
proves the cached drafts were reused). -/
def c2SendEnv : DispatchEnv :=
  { llmIntent := .ok c2SendIntent,
    enrichLinkedin := fun _ => .error sampleNetworkError,
    enrichDomain := fun _ => .error sampleNetworkError,
    search := fun _ => .ok { text := "ok" },
    webScrape := fun _ => .ok { text := "ok" },
    checkReplies := .ok (),
    generate := fun _ => .error sampleNetworkError,
    send := sampleSendOk,
    freshId := "id-0", now := "t0" }

/-- Witness for C2: a send-emails command finding the cached draft for the
one prospect makes zero content-generation calls and clears the cache. -/
theorem c2_draft_cache_lifecycle_witness :
    (processUserPrompt ("send emails") [sampleProspect] [] DataSource.contactout c2SendEnv
      (some [("p1", sampleDraft)])).genCalls = 0
    ∧ (processUserPrompt ("send emails") [sampleProspect] [] DataSource.contactout c2SendEnv
      (some [("p1", sampleDraft)])).cache = none := by
  have h := (c2_draft_cache_lifecycle ("send emails") [sampleProspect] [] DataSource.contactout
    c2SendEnv c2SendIntent true (by rfl)).1 [("p1", sampleDraft)] rfl rfl
  exact ⟨h.1, h.2 (by decide)⟩

/-- Environment whose classifier labels the prompt a web scrape and whose
scrape handler succeeds. -/
def c2ScrapeEnv : DispatchEnv :=
  { llmIntent := .ok { type := IntentType.web_scrape, values := ["top ai companies"] },
    enrichLinkedin := fun _ => .error sampleNetworkError,
    enrichDomain := fun _ => .error sampleNetworkError,
    search := fun _ => .ok { text := "ok" },
    webScrape := fun _ => .ok { text := "scraped" },
    checkReplies := .ok (),
    generate := fun _ => .error sampleNetworkError,
    send := sampleSendOk,
    freshId := "id-0", now := "t0" }

/-- Counterexample to C2 as stated: with the webscraping data source active,
a non-send prompt (classified web_scrape) is handled through the shortcut and
does NOT clear the cached draft set — the cache survives verbatim — and a
following send-emails command then consumes the stale drafts: it makes zero
content-generation calls (generation would fail in this environment) and
reports a fully successful send built from the cached draft. -/
theorem c2_cache_survives_webscrape_shortcut :
    (processUserPrompt ("top ai companies") [sampleProspect] [] DataSource.webscraping
        c2ScrapeEnv (some [("p1", sampleDraft)])).cache = some [("p1", sampleDraft)]
    ∧ (processUserPrompt ("top ai companies") [sampleProspect] [] DataSource.webscraping
        c2ScrapeEnv (some [("p1", sampleDraft)])).result = .ok { text := "scraped" }
    ∧ (processUserPrompt ("send emails") [sampleProspect] [] DataSource.webscraping c2SendEnv
        (some [("p1", sampleDraft)])).genCalls = 0
    ∧ (processUserPrompt ("send emails") [sampleProspect] [] DataSource.webscraping c2SendEnv
        (some [("p1", sampleDraft)])).result
      = .ok { text := sendSummary 1 0,
              data := some [RespItem.logItem { status := "✅ Sent", «to» := some ("a@b.co"),
                                               subject := "Email for Ann" }] } := by
  refine ⟨rfl, rfl, rfl, rfl⟩
